import Mathlib

/-! Value hashing of `packages/equatable/src/internal/hashCode.cpp`.

A shallow embedding of the hash functions of `hashCode.cpp` and proofs of the
properties its specification states about them.

Machine integers are natural numbers (`uint32_t`, `uint64_t`, `size_t`) or
integers (`int`, `int32_t`); every operation that can wrap carries an explicit
`% 2 ^ 32` or `% 2 ^ 64`.
-/

namespace HashCode

/-! ## Machine integer conversions -/

/-- Conversion of a signed `int` to `uint32_t` (implicit at a call such as
`ComputeUnseededHash(sign_bit)`, explicit in `std::_Bit_cast<uint32_t>(hash_int)`):
the value modulo `2 ^ 32`. -/
def toUint32 (n : Int) : Nat := (n % 2 ^ 32).toNat

/-- The reinterpretation `std::_Bit_cast<int32_t>(hash)` of a `uint32_t` as a two's
complement `int32_t`. -/
def bitCastInt32 (hash : Nat) : Int :=
  if hash < 2 ^ 31 then (hash : Int) else (hash : Int) - 2 ^ 32

/-- The operator `~` on a `uint32_t`. -/
def not32 (x : Nat) : Nat := 0xFFFFFFFF - x

/-- The operator `~` on a `uint64_t`. -/
def not64 (x : Nat) : Nat := 0xFFFFFFFFFFFFFFFF - x

/-! ## The integer mixers (lines 5-37) -/

/-- The function `ComputeUnseededHash(uint32_t key)`, lines 5-14. -/
def ComputeUnseededHash (key : Nat) : Nat :=
  let hash := key
  let hash := (not32 hash + (hash <<< 15) % 2 ^ 32) % 2 ^ 32
  let hash := hash ^^^ (hash >>> 12)
  let hash := (hash + (hash <<< 2) % 2 ^ 32) % 2 ^ 32
  let hash := hash ^^^ (hash >>> 4)
  let hash := (hash * 2057) % 2 ^ 32
  let hash := hash ^^^ (hash >>> 16)
  hash &&& 0x3fffffff

/-- The value of `hash` in `ComputeUnseededHash` after line 12, before the mask of
line 13. -/
def ComputeUnseededHash.pre (key : Nat) : Nat :=
  let hash := key
  let hash := (not32 hash + (hash <<< 15) % 2 ^ 32) % 2 ^ 32
  let hash := hash ^^^ (hash >>> 12)
  let hash := (hash + (hash <<< 2) % 2 ^ 32) % 2 ^ 32
  let hash := hash ^^^ (hash >>> 4)
  let hash := (hash * 2057) % 2 ^ 32
  let hash := hash ^^^ (hash >>> 16)
  hash

/-- The function `ComputeLongHash(uint64_t key)`, lines 16-25. The mask is applied to
the 64-bit value, and the result is then narrowed to `uint32_t`. -/
def ComputeLongHash (key : Nat) : Nat :=
  let hash := key
  let hash := (not64 hash + (hash <<< 18) % 2 ^ 64) % 2 ^ 64
  let hash := hash ^^^ (hash >>> 31)
  let hash := (hash * 21) % 2 ^ 64
  let hash := hash ^^^ (hash >>> 11)
  let hash := (hash + (hash <<< 6) % 2 ^ 64) % 2 ^ 64
  let hash := hash ^^^ (hash >>> 22)
  (hash &&& 0x3fffffff) % 2 ^ 32

/-- The function `ComputeSeededHash(uint32_t key, uint64_t seed)`, lines 27-29. -/
def ComputeSeededHash (key : Nat) (seed : Nat) : Nat :=
  ComputeLongHash (key ^^^ seed)

/-! ## The forms in the comments of the mixers -/

/-- The operator `-` on `uint32_t`. -/
def sub32 (a b : Nat) : Nat := (a + 2 ^ 32 - b) % 2 ^ 32

/-- The operator `-` on `uint64_t`. -/
def sub64 (a b : Nat) : Nat := (a + 2 ^ 64 - b) % 2 ^ 64

/-- The comment of line 7, `hash = (hash << 15) - hash - 1`, on `uint32_t`. -/
def ComputeUnseededHash.comment7 (hash : Nat) : Nat :=
  sub32 (sub32 ((hash <<< 15) % 2 ^ 32) hash) 1

/-- The comment of line 11, `hash = (hash + (hash << 3)) + (hash << 11)`, on `uint32_t`. -/
def ComputeUnseededHash.comment11 (hash : Nat) : Nat :=
  ((hash + (hash <<< 3) % 2 ^ 32) % 2 ^ 32 + (hash <<< 11) % 2 ^ 32) % 2 ^ 32

/-- The comment of line 18, `hash = (hash << 18) - hash - 1`, on `uint64_t`. -/
def ComputeLongHash.comment18 (hash : Nat) : Nat :=
  sub64 (sub64 ((hash <<< 18) % 2 ^ 64) hash) 1

/-- The comment of line 20, `hash = (hash + (hash << 2)) + (hash << 4)`, on `uint64_t`. -/
def ComputeLongHash.comment20 (hash : Nat) : Nat :=
  ((hash + (hash <<< 2) % 2 ^ 64) % 2 ^ 64 + (hash <<< 4) % 2 ^ 64) % 2 ^ 64

/-! ## The typed hashers -/

/-- What `HashBigInt` reads from a `v8::BigInt` through `ToWordsArray`: the sign bit
(an `int`, 0 or 1) and the 64-bit words of the magnitude. -/
structure BigInt where
  sign_bit : Int
  words : List Nat
deriving DecidableEq

/-- The body of the loop of `HashBigInt`, lines 48-49. -/
def HashBigInt.step (hash : Nat) (word : Nat) : Nat :=
  let hash := ((hash <<< 7) % 2 ^ 32) ||| (hash >>> 25)
  hash ^^^ ComputeLongHash word

/-- The loop `for (uint64_t word : words)` of `HashBigInt`, lines 47-50. -/
def HashBigInt.loop (hash : Nat) : List Nat → Nat
  | [] => hash
  | word :: words => HashBigInt.loop (HashBigInt.step hash word) words

/-- The function `HashBigInt(v8::Local<v8::BigInt>)`, lines 39-53. -/
def HashBigInt (bigint_key : BigInt) : Nat :=
  let hash := ComputeUnseededHash (toUint32 bigint_key.sign_bit)
  HashBigInt.loop hash bigint_key.words

/-- What `HashNumber` reads from a `v8::Number`. `NumberValue` is the `double`, held as
its IEEE-754 binary64 bit pattern. -/
structure Number where
  IsInt32 : Bool
  Int32Value : Int
  IsUint32 : Bool
  Uint32Value : Nat
  NumberValue : Nat
deriving DecidableEq

/-- The function `HashNumber(v8::Local<v8::Number>, v8::Local<v8::Context>)`, lines 68-76.
The library function `std::hash<double>` is the parameter `std_hash_double`, from the bit
pattern of the `double` to a `size_t`. -/
def HashNumber (std_hash_double : Nat → Nat) (number_key : Number) : Nat :=
  if number_key.IsInt32 then
    ComputeUnseededHash (toUint32 number_key.Int32Value)
  else if number_key.IsUint32 then
    ComputeUnseededHash number_key.Uint32Value
  else
    ComputeLongHash (std_hash_double number_key.NumberValue)

/-- What `HashName` reads from a `v8::Name` (a string or a symbol). -/
structure Name where
  GetIdentityHash : Int
deriving DecidableEq

/-- The function `HashName(v8::Local<v8::Name>)`, lines 91-94. -/
def HashName (name_key : Name) : Nat :=
  let hash_int := name_key.GetIdentityHash
  toUint32 hash_int

/-- What `HashObject` reads from a `v8::Object`. -/
structure Object where
  GetIdentityHash : Int
deriving DecidableEq

/-- The function `HashObject(v8::Local<v8::Object>)`, lines 109-112. -/
def HashObject (object_key : Object) : Nat :=
  let hash_int := object_key.GetIdentityHash
  toUint32 hash_int

/-! ## Values and callbacks -/

/-- A `v8::Value` as the callbacks see it: its kind, and what the hashers read from it.
The constructor `other` is a value that passes none of the kind tests of `HashUnknown`:
the tests of lines 137-152 cover every JavaScript type, so no JavaScript value is one, only
an engine-internal value handed over from C++; the `else` of line 155 is there for it. -/
inductive Value where
  | number (number_key : Number)
  | string (name_key : Name)
  | symbol (name_key : Name)
  | bigint (bigint_key : BigInt)
  | object (object_key : Object)
  | boolean (value : Bool)
  | null
  | undefined
  | other
deriving DecidableEq

namespace Value

def IsNumber : Value → Bool
  | number _ => true
  | _ => false

def IsName : Value → Bool
  | string _ => true
  | symbol _ => true
  | _ => false

def IsBigInt : Value → Bool
  | bigint _ => true
  | _ => false

def IsObject : Value → Bool
  | object _ => true
  | _ => false

def IsBoolean : Value → Bool
  | boolean _ => true
  | _ => false

def IsNullOrUndefined : Value → Bool
  | null => true
  | undefined => true
  | _ => false

/-- The cast `As<v8::Number>()`, with what `HashNumber` reads through it. It is unchecked:
on a value of another kind `HashNumber` goes on and converts the value with
`NumberValue`, which the model does not hold, here `none`. -/
def AsNumber : Value → Option Number
  | number number_key => some number_key
  | _ => none

/-- The cast `As<v8::Name>()`. It is unchecked: reading a value of another kind through it
is undefined behaviour, here `none`. -/
def AsName : Value → Option Name
  | string name_key => some name_key
  | symbol name_key => some name_key
  | _ => none

/-- The cast `As<v8::BigInt>()`. It is unchecked: reading a value of another kind through it
is undefined behaviour, here `none`. -/
def AsBigInt : Value → Option BigInt
  | bigint bigint_key => some bigint_key
  | _ => none

/-- The cast `As<v8::Object>()`. It is unchecked: reading a value of another kind through it
is undefined behaviour, here `none`. -/
def AsObject : Value → Option Object
  | object object_key => some object_key
  | _ => none

/-- The call `BooleanValue(isolate)` on a Boolean. `HashUnknown` calls it on Booleans
only; the conversion of the other kinds to a boolean is not modelled (`none`). -/
def BooleanValue : Value → Option Bool
  | boolean value => some value
  | _ => none

end Value

/-- What a callback leaves behind in its `v8::FunctionCallbackInfo` and isolate: the
exception scheduled by `ThrowException`, and the value given to `GetReturnValue().Set`. -/
structure CallbackInfo where
  exception : Option String
  returnValue : Option Int
deriving DecidableEq

namespace CallbackInfo

/-- The state at the entry of a callback. -/
def entry : CallbackInfo := { exception := none, returnValue := none }

/-- The call `isolate->ThrowException(v8::Exception::TypeError(message))`. It schedules
the exception and returns to the callback, which goes on. -/
def ThrowException (info : CallbackInfo) (message : String) : CallbackInfo :=
  { info with exception := some message }

/-- The call `args.GetReturnValue().Set(v8::Int32::New(isolate, value))`. -/
def Set (info : CallbackInfo) (value : Int) : CallbackInfo :=
  { info with returnValue := some value }

/-- What the caller of a callback gets from V8 once the callback has returned. -/
inductive Completion where
  | throws (message : String)
  | returns (value : Option Int)
deriving DecidableEq

/-- What the caller gets at the final state `info`: V8 throws a scheduled exception to the
caller and drops the return value; with no exception scheduled the caller gets the return
value, `undefined` when none was set. -/
def completion (info : CallbackInfo) : Completion :=
  match info.exception with
  | some message => Completion.throws message
  | none => Completion.returns info.returnValue

end CallbackInfo

/-- How far the model follows a callback. -/
inductive Outcome where
  /-- The callback has run to its end and returned, in the state `info`. -/
  | returned (info : CallbackInfo)
  /-- In the state `info` the callback goes on with `args[0]` cast, unchecked, to a kind it
  is not of, and runs its typed hasher on it: `WordCount`, `ToWordsArray` and
  `GetIdentityHash` then read an object of another type (undefined behaviour), and
  `NumberValue` converts the value to a number; what they give is not in the model. -/
  | goesOn (info : CallbackInfo)
deriving DecidableEq

namespace Outcome

/-- The state the callback has reached, with the exception it has scheduled. -/
def info : Outcome → CallbackInfo
  | returned info => info
  | goesOn info => info

/-- The final state of a callback that has returned, `none` when the model does not follow
the callback to its end. -/
def final : Outcome → Option CallbackInfo
  | returned info => some info
  | goesOn _ => none

end Outcome

/-- The expression `args[i]`: `v8::FunctionCallbackInfo::operator[]` gives `undefined`
when `i` is not below `args.Length()`. -/
def argAt (args : List Value) (i : Nat) : Value :=
  args.getD i Value.undefined

/-! The callbacks `void HashX(const v8::FunctionCallbackInfo<v8::Value>& args)`. For each
typed callback `HashX.guard` is its test, `HashX.body` the whole callback, and `HashX` the
final state of the callback where the model follows it to its end. -/

namespace Callback

/-- The state after the test of the callback `HashBigInt`, lines 59-61. -/
def HashBigInt.guard (args : List Value) : CallbackInfo :=
  let info := CallbackInfo.entry
  if args.length < 1 || !(argAt args 0).IsBigInt then
    info.ThrowException "Invalid arguments"
  else info

/-- The state after the test of the callback `HashNumber`, lines 82-84. -/
def HashNumber.guard (args : List Value) : CallbackInfo :=
  let info := CallbackInfo.entry
  if args.length < 1 || !(argAt args 0).IsNumber then
    info.ThrowException "Invalid arguments"
  else info

/-- The state after the test of the callback `HashName`, lines 100-102. -/
def HashName.guard (args : List Value) : CallbackInfo :=
  let info := CallbackInfo.entry
  if args.length < 1 || !(argAt args 0).IsName then
    info.ThrowException "Invalid arguments"
  else info

/-- The state after the test of the callback `HashObject`, lines 118-120. -/
def HashObject.guard (args : List Value) : CallbackInfo :=
  let info := CallbackInfo.entry
  if args.length < 1 || !(argAt args 0).IsObject then
    info.ThrowException "Invalid arguments"
  else info

/-- The callback `HashBigInt`, lines 55-66: the test, which does not return after
`ThrowException`, then the cast, the typed hasher and the return value. -/
def HashBigInt.body (args : List Value) : Outcome :=
  let info := HashBigInt.guard args
  match (argAt args 0).AsBigInt with
  | none => Outcome.goesOn info
  | some bigint_key =>
    let hash := HashCode.HashBigInt bigint_key
    Outcome.returned (info.Set (bitCastInt32 hash))

/-- The final state of the callback `HashBigInt`, lines 55-66. -/
def HashBigInt (args : List Value) : Option CallbackInfo :=
  (HashBigInt.body args).final

/-- The callback `HashNumber`, lines 78-89. -/
def HashNumber.body (std_hash_double : Nat → Nat) (args : List Value) : Outcome :=
  let info := HashNumber.guard args
  match (argAt args 0).AsNumber with
  | none => Outcome.goesOn info
  | some number_key =>
    let hash := HashCode.HashNumber std_hash_double number_key
    Outcome.returned (info.Set (bitCastInt32 hash))

/-- The final state of the callback `HashNumber`, lines 78-89. -/
def HashNumber (std_hash_double : Nat → Nat) (args : List Value) : Option CallbackInfo :=
  (HashNumber.body std_hash_double args).final

/-- The callback `HashName`, lines 96-107. -/
def HashName.body (args : List Value) : Outcome :=
  let info := HashName.guard args
  match (argAt args 0).AsName with
  | none => Outcome.goesOn info
  | some string_key =>
    let hash := HashCode.HashName string_key
    Outcome.returned (info.Set (bitCastInt32 hash))

/-- The final state of the callback `HashName`, lines 96-107. -/
def HashName (args : List Value) : Option CallbackInfo :=
  (HashName.body args).final

/-- The callback `HashObject`, lines 114-125. -/
def HashObject.body (args : List Value) : Outcome :=
  let info := HashObject.guard args
  match (argAt args 0).AsObject with
  | none => Outcome.goesOn info
  | some object_key =>
    let hash := HashCode.HashObject object_key
    Outcome.returned (info.Set (bitCastInt32 hash))

/-- The final state of the callback `HashObject`, lines 114-125. -/
def HashObject (args : List Value) : Option CallbackInfo :=
  (HashObject.body args).final

/-- The chain of kind tests of `HashUnknown`, lines 136-157: the value of `hash` and the
state after it. -/
def HashUnknown.dispatch (std_hash_double : Nat → Nat) (info : CallbackInfo) (key : Value) :
    Option (Nat × CallbackInfo) :=
  let hash := 0
  if key.IsNumber then
    key.AsNumber.map fun number_key => (HashCode.HashNumber std_hash_double number_key, info)
  else if key.IsName then
    key.AsName.map fun name_key => (HashCode.HashName name_key, info)
  else if key.IsBigInt then
    key.AsBigInt.map fun bigint_key => (HashCode.HashBigInt bigint_key, info)
  else if key.IsObject then
    key.AsObject.map fun object_key => (HashCode.HashObject object_key, info)
  else if key.IsBoolean then
    key.BooleanValue.map fun value => (ComputeUnseededHash (if value then 1 else 0), info)
  else if key.IsNullOrUndefined then
    some (ComputeUnseededHash 0, info)
  else
    some (hash, info.ThrowException "Invalid arguments")

/-- The callback `HashUnknown`, lines 127-160. -/
def HashUnknown (std_hash_double : Nat → Nat) (args : List Value) : Option CallbackInfo :=
  let info := CallbackInfo.entry
  let info :=
    if args.length < 1 then
      info.ThrowException "Invalid arguments"
    else info
  let key := argAt args 0
  match HashUnknown.dispatch std_hash_double info key with
  | none => none
  | some (hash, info) => some (info.Set (bitCastInt32 hash))

end Callback

/-- The function `Init`, lines 162-169: the callbacks by the names they are exported
under. -/
def Init (std_hash_double : Nat → Nat) :
    List (String × (List Value → Option CallbackInfo)) :=
  [("hashBigInt", Callback.HashBigInt),
   ("hashNumber", Callback.HashNumber std_hash_double),
   ("hashString", Callback.HashName),
   ("hashSymbol", Callback.HashName),
   ("hashObject", Callback.HashObject),
   ("hashUnknown", Callback.HashUnknown std_hash_double)]

/-! ## An instance of `std::hash<double>`

The source leaves `std::hash<double>` to the C++ standard library. The library whose
`std::_Bit_cast` the source calls is Microsoft's; its 64-bit `std::hash<double>` is FNV-1a
over the eight bytes of the value, after mapping `-0.0` to `0.0`. -/

/-- The function `_Fnv1a_append_bytes` of that library, for a 64-bit `size_t`. -/
def Fnv1a_append_bytes (val : Nat) : List Nat → Nat
  | [] => val
  | byte :: bytes => Fnv1a_append_bytes (((val ^^^ byte) * 1099511628211) % 2 ^ 64) bytes

/-- The eight bytes of a 64-bit pattern, lowest first. -/
def bytesOf (bits : Nat) : List Nat :=
  (List.range 8).map fun i => (bits >>> (8 * i)) % 256

/-- The function `std::hash<double>` of that library, on the bit pattern of the `double`:
`_Hash_representation(_Keyval == 0.0 ? 0.0 : _Keyval)`. -/
def msvc_hash_double (bits : Nat) : Nat :=
  let bits := if bits = 0x8000000000000000 then 0 else bits
  Fnv1a_append_bytes 14695981039346656037 (bytesOf bits)

/-- The expression `(hash << 7) | (hash >> 25)` of line 48, named for the proofs. -/
def rotl7 (hash : Nat) : Nat :=
  ((hash <<< 7) % 2 ^ 32) ||| (hash >>> 25)

/-! ## The closed form of the fold of `HashBigInt` -/

/-- The 32-bit left rotation by `k` places, `0 <= k < 32`, in the form of line 48. -/
def rotl32 (x k : Nat) : Nat :=
  ((x <<< k) % 2 ^ 32) ||| (x >>> (32 - k))

/-- The exclusive or of the numbers of a list. -/
def xorAll (l : List Nat) : Nat :=
  l.foldr (fun a b => a ^^^ b) 0

/-- The contribution of the words: word `i` of `n` is mixed by `ComputeLongHash` and
rotated by 7 places for each of the `n - 1 - i` words after it. -/
def wordsTerm (words : List Nat) : Nat :=
  xorAll ((List.range words.length).map fun i =>
    rotl32 (ComputeLongHash (words.getD i 0)) (7 * (words.length - 1 - i) % 32))

/-- The closed form: the hash of the sign rotated by 7 places for each word, combined
with the contribution of the words. -/
def closedForm (bigint_key : BigInt) : Nat :=
  rotl32 (ComputeUnseededHash (toUint32 bigint_key.sign_bit))
      (7 * bigint_key.words.length % 32) ^^^
    wordsTerm bigint_key.words

/-! ## The reference functions of the specification

Written from the words of the specification, over the bit vectors of the standard
library, whose arithmetic is modulo `2 ^ 32` and `2 ^ 64` and whose `>>>` is the logical
right shift. -/

namespace Spec

/-- The specification's `mix32(key: uint32) -> uint32`. -/
def mix32 (key : BitVec 32) : BitVec 32 :=
  let h := ~~~key + (key <<< 15)
  let h := h ^^^ (h >>> 12)
  let h := h + (h <<< 2)
  let h := h ^^^ (h >>> 4)
  let h := h * 2057
  let h := h ^^^ (h >>> 16)
  h &&& 0x3FFFFFFF

/-- The specification's `mix64(key: uint64) -> uint32`: the avalanche, then "truncate to
the low 32 bits, return `h & 0x3FFFFFFF`". -/
def mix64 (key : BitVec 64) : BitVec 32 :=
  let h := ~~~key + (key <<< 18)
  let h := h ^^^ (h >>> 31)
  let h := h * 21
  let h := h ^^^ (h >>> 11)
  let h := h + (h <<< 6)
  let h := h ^^^ (h >>> 22)
  BitVec.setWidth 32 h &&& 0x3FFFFFFF

/-- The specification's hash of an arbitrary-precision integer: `h = mix32(sign)`; then
for each word in order, `h = rotate_left(h, 7) xor mix64(word)`. -/
def hashBigInt (sign : BitVec 32) (words : List (BitVec 64)) : BitVec 32 :=
  words.foldl (fun h word => BitVec.rotateLeft h 7 ^^^ mix64 word) (mix32 sign)

/-- The specification's `hash_unknown`: the typed hasher of the kind of the value, for the
kinds Number, Identifier, ArbitraryPrecisionInteger, ObjectRef, Boolean and Nullish;
`none` is `InvalidKind`. -/
def hash_unknown (std_hash_double : Nat → Nat) : Value → Option Nat
  | .number number_key => some (HashNumber std_hash_double number_key)
  | .string name_key => some (HashName name_key)
  | .symbol name_key => some (HashName name_key)
  | .bigint bigint_key => some (HashBigInt bigint_key)
  | .object object_key => some (HashObject object_key)
  | .boolean value => some (ComputeUnseededHash (if value then 1 else 0))
  | .null => some (ComputeUnseededHash 0)
  | .undefined => some (ComputeUnseededHash 0)
  | .other => none

/-- The kinds the specification's generic entry point recognizes. -/
def recognized (key : Value) : Bool :=
  key.IsNumber || key.IsName || key.IsBigInt || key.IsObject || key.IsBoolean ||
    key.IsNullOrUndefined

/-- The specification's condition for `InvalidArgument` at an entry point that accepts
the kinds of `accepts`: no argument is supplied, or the kind of the supplied value is not
an accepted one. -/
def invalidArgument (accepts : Value → Bool) : List Value → Bool
  | [] => true
  | key :: _ => !accepts key

end Spec

/-! ## Properties of the mixers -/

theorem ComputeUnseededHash_le (key : Nat) : ComputeUnseededHash key ≤ 0x3FFFFFFF := by
  unfold ComputeUnseededHash
  exact Nat.and_le_right

theorem ComputeLongHash_le (key : Nat) : ComputeLongHash key ≤ 0x3FFFFFFF := by
  unfold ComputeLongHash
  exact Nat.le_trans (Nat.mod_le _ _) Nat.and_le_right

theorem ComputeUnseededHash_eq_mix32 (key : BitVec 32) :
    ComputeUnseededHash key.toNat = (Spec.mix32 key).toNat := by
  simp only [ComputeUnseededHash, Spec.mix32, not32, BitVec.toNat_and, BitVec.toNat_xor,
    BitVec.toNat_ushiftRight, BitVec.toNat_mul, BitVec.toNat_add, BitVec.toNat_shiftLeft,
    BitVec.toNat_not, BitVec.toNat_ofNat]
  rfl

/-- Masking with `0x3fffffff` and narrowing to 32 bits commute. -/
theorem mask_narrow (h : Nat) :
    (h &&& 0x3fffffff) % 2 ^ 32 = h % 2 ^ 32 &&& 0x3fffffff := by
  have e1 := Nat.and_pow_two_sub_one_eq_mod h 30
  have e2 := Nat.and_pow_two_sub_one_eq_mod (h % 2 ^ 32) 30
  norm_num at e1 e2 ⊢
  rw [e1, e2]
  omega

theorem ComputeLongHash_eq_mix64 (key : BitVec 64) :
    ComputeLongHash key.toNat = (Spec.mix64 key).toNat := by
  simp only [ComputeLongHash, Spec.mix64, not64, BitVec.toNat_and, BitVec.toNat_xor,
    BitVec.toNat_ushiftRight, BitVec.toNat_mul, BitVec.toNat_add, BitVec.toNat_shiftLeft,
    BitVec.toNat_not, BitVec.toNat_ofNat, BitVec.toNat_setWidth]
  rw [mask_narrow]
  rfl

/-! ## The rotation of `HashBigInt` -/

theorem step_eq (hash word : Nat) :
    HashBigInt.step hash word = rotl7 hash ^^^ ComputeLongHash word := rfl

/-- Arithmetic form of the rotation: the low 25 bits move up by 7 places and the high 7
bits move to the bottom. -/
theorem rotl7_eq_arith (h : Nat) (hh : h < 2 ^ 32) :
    rotl7 h = 2 ^ 7 * (h % 2 ^ 25) + h / 2 ^ 25 := by
  have e1 : (h <<< 7) % 2 ^ 32 = 2 ^ 7 * (h % 2 ^ 25) := by
    rw [Nat.shiftLeft_eq]; omega
  have e2 : h >>> 25 = h / 2 ^ 25 := Nat.shiftRight_eq_div_pow h 25
  have lt : h / 2 ^ 25 < 2 ^ 7 := by omega
  unfold rotl7
  rw [e1, e2]
  exact (Nat.mul_add_lt_is_or lt _).symm

theorem rotl7_lt (h : Nat) (hh : h < 2 ^ 32) : rotl7 h < 2 ^ 32 := by
  rw [rotl7_eq_arith h hh]; omega

/-- Bit `i` of the rotation is bit `i - 7` (modulo 32) of the argument. -/
theorem rotl7_testBit (h : Nat) (hh : h < 2 ^ 32) (i : Nat) :
    (rotl7 h).testBit i = (decide (i < 32) && h.testBit ((i + 25) % 32)) := by
  unfold rotl7
  simp only [Nat.testBit_or, Nat.testBit_mod_two_pow, Nat.testBit_shiftLeft,
    Nat.testBit_shiftRight]
  by_cases h7 : i < 7
  · have e : (i + 25) % 32 = 25 + i := by omega
    have : ¬ (i ≥ 7) := by omega
    have : i < 32 := by omega
    simp [*]
  · have hb : h.testBit (25 + i) = false := by
      apply Nat.testBit_lt_two_pow
      exact Nat.lt_of_lt_of_le hh (Nat.pow_le_pow_right (by decide) (by omega))
    by_cases h32 : i < 32
    · have e : (i + 25) % 32 = i - 7 := by omega
      have : i ≥ 7 := by omega
      simp [*]
    · simp [*]

theorem rotl7_xor (x y : Nat) (hx : x < 2 ^ 32) (hy : y < 2 ^ 32) :
    rotl7 (x ^^^ y) = rotl7 x ^^^ rotl7 y := by
  apply Nat.eq_of_testBit_eq
  intro i
  rw [Nat.testBit_xor, rotl7_testBit _ (Nat.xor_lt_two_pow hx hy), rotl7_testBit _ hx,
    rotl7_testBit _ hy, Nat.testBit_xor]
  cases decide (i < 32) <;> simp

/-- A value below `2 ^ 30` that the rotation leaves fixed is zero. -/
theorem rotl7_fixed (d : Nat) (hd : d < 2 ^ 30) (h : rotl7 d = d) : d = 0 := by
  rw [rotl7_eq_arith d (by omega)] at h
  omega

/-! ## The fold of `HashBigInt` -/

theorem ComputeUnseededHash_lt (key : Nat) : ComputeUnseededHash key < 2 ^ 32 :=
  Nat.lt_of_le_of_lt (ComputeUnseededHash_le key) (by decide)

theorem ComputeLongHash_lt (key : Nat) : ComputeLongHash key < 2 ^ 32 :=
  Nat.lt_of_le_of_lt (ComputeLongHash_le key) (by decide)

theorem step_lt (hash word : Nat) (hh : hash < 2 ^ 32) :
    HashBigInt.step hash word < 2 ^ 32 := by
  rw [step_eq]
  exact Nat.xor_lt_two_pow (rotl7_lt hash hh) (ComputeLongHash_lt word)

theorem loop_lt (words : List Nat) (hash : Nat) (hh : hash < 2 ^ 32) :
    HashBigInt.loop hash words < 2 ^ 32 := by
  induction words generalizing hash with
  | nil => exact hh
  | cons word words ih => exact ih _ (step_lt hash word hh)

theorem HashBigInt_lt (bigint_key : BigInt) : HashBigInt bigint_key < 2 ^ 32 :=
  loop_lt _ _ (ComputeUnseededHash_lt _)

theorem loop_eq_foldl (words : List Nat) (hash : Nat) :
    HashBigInt.loop hash words = words.foldl HashBigInt.step hash := by
  induction words generalizing hash with
  | nil => rfl
  | cons word words ih => exact ih _

theorem rotl7_eq_rotateLeft (h : BitVec 32) :
    rotl7 h.toNat = (BitVec.rotateLeft h 7).toNat := by
  simp [rotl7, BitVec.rotateLeft, BitVec.rotateLeftAux]

theorem loop_eq_spec (words : List (BitVec 64)) (h : BitVec 32) :
    HashBigInt.loop h.toNat (words.map BitVec.toNat) =
      (words.foldl (fun h word => BitVec.rotateLeft h 7 ^^^ Spec.mix64 word) h).toNat := by
  induction words generalizing h with
  | nil => rfl
  | cons word words ih =>
    have e : HashBigInt.step h.toNat word.toNat =
        (BitVec.rotateLeft h 7 ^^^ Spec.mix64 word).toNat := by
      rw [step_eq, rotl7_eq_rotateLeft, ComputeLongHash_eq_mix64, BitVec.toNat_xor]
    simp only [List.map_cons, List.foldl_cons, HashBigInt.loop, e]
    exact ih _

theorem toUint32_eq_ofInt (n : Int) : toUint32 n = (BitVec.ofInt 32 n).toNat := by
  simp [toUint32, BitVec.toNat_ofInt]

theorem HashBigInt_eq_spec (sign_bit : Int) (words : List (BitVec 64)) :
    HashBigInt ⟨sign_bit, words.map BitVec.toNat⟩ =
      (Spec.hashBigInt (BitVec.ofInt 32 sign_bit) words).toNat := by
  unfold HashBigInt Spec.hashBigInt
  simp only []
  rw [toUint32_eq_ofInt, ComputeUnseededHash_eq_mix32]
  exact loop_eq_spec words _

/-- Two words in either order: the hashes agree exactly when the mixed words do. -/
theorem swap_iff (h a b : Nat) (hh : h < 2 ^ 32) (ha : a < 2 ^ 30) (hb : b < 2 ^ 30) :
    rotl7 (rotl7 h ^^^ a) ^^^ b = rotl7 (rotl7 h ^^^ b) ^^^ a ↔ a = b := by
  have ha32 : a < 2 ^ 32 := by omega
  have hb32 : b < 2 ^ 32 := by omega
  have hr := rotl7_lt h hh
  rw [rotl7_xor _ _ hr ha32, rotl7_xor _ _ hr hb32, Nat.xor_assoc, Nat.xor_assoc,
    Nat.xor_right_inj]
  constructor
  · intro e
    have e2 : rotl7 (a ^^^ b) = a ^^^ b := by
      rw [rotl7_xor _ _ ha32 hb32]
      apply Nat.eq_of_testBit_eq
      intro i
      have ei := congrArg (fun t => Nat.testBit t i) e
      simp only [Nat.testBit_xor] at ei ⊢
      revert ei
      cases (rotl7 a).testBit i <;> cases (rotl7 b).testBit i <;>
        cases a.testBit i <;> cases b.testBit i <;> simp
    have := rotl7_fixed _ (Nat.xor_lt_two_pow ha hb) e2
    exact Nat.xor_eq_zero.mp this
  · rintro rfl
    rfl

/-! ## Rotations by any number of places -/

theorem rotl7_eq_rotl32 (x : Nat) : rotl7 x = rotl32 x 7 := rfl

theorem rotl32_testBit (x k : Nat) (hx : x < 2 ^ 32) (hk : k < 32) (i : Nat) :
    (rotl32 x k).testBit i = (decide (i < 32) && x.testBit ((i + 32 - k) % 32)) := by
  unfold rotl32
  simp only [Nat.testBit_or, Nat.testBit_mod_two_pow, Nat.testBit_shiftLeft,
    Nat.testBit_shiftRight]
  by_cases hik : i < k
  · have e : (i + 32 - k) % 32 = 32 - k + i := by omega
    have : ¬ (i ≥ k) := by omega
    have : i < 32 := by omega
    simp [*]
  · have hb : x.testBit (32 - k + i) = false := by
      apply Nat.testBit_lt_two_pow
      exact Nat.lt_of_lt_of_le hx (Nat.pow_le_pow_right (by decide) (by omega))
    by_cases h32 : i < 32
    · have e : (i + 32 - k) % 32 = i - k := by omega
      have : i ≥ k := by omega
      simp [*]
    · simp [*]

theorem rotl32_lt (x k : Nat) (hx : x < 2 ^ 32) (hk : k < 32) : rotl32 x k < 2 ^ 32 := by
  apply Nat.lt_pow_two_of_testBit
  intro i hi
  rw [rotl32_testBit x k hx hk]
  have : ¬ (i < 32) := by omega
  simp [this]

theorem rotl32_xor (x y k : Nat) (hx : x < 2 ^ 32) (hy : y < 2 ^ 32) (hk : k < 32) :
    rotl32 (x ^^^ y) k = rotl32 x k ^^^ rotl32 y k := by
  apply Nat.eq_of_testBit_eq
  intro i
  rw [Nat.testBit_xor, rotl32_testBit _ k (Nat.xor_lt_two_pow hx hy) hk,
    rotl32_testBit _ k hx hk, rotl32_testBit _ k hy hk, Nat.testBit_xor]
  cases decide (i < 32) <;> simp

theorem rotl32_rotl32 (x a b : Nat) (hx : x < 2 ^ 32) (ha : a < 32) (hb : b < 32) :
    rotl32 (rotl32 x a) b = rotl32 x ((a + b) % 32) := by
  apply Nat.eq_of_testBit_eq
  intro i
  rw [rotl32_testBit _ b (rotl32_lt x a hx ha) hb, rotl32_testBit _ a hx ha,
    rotl32_testBit _ _ hx (Nat.mod_lt _ (by decide))]
  by_cases h32 : i < 32
  · have e : ((i + 32 - b) % 32 + 32 - a) % 32 = (i + 32 - (a + b) % 32) % 32 := by omega
    have : (i + 32 - b) % 32 < 32 := Nat.mod_lt _ (by decide)
    simp [*]
  · simp [*]

theorem rotl32_zero (x : Nat) (hx : x < 2 ^ 32) : rotl32 x 0 = x := by
  apply Nat.eq_of_testBit_eq
  intro i
  rw [rotl32_testBit x 0 hx (by decide)]
  by_cases h32 : i < 32
  · have e : (i + 32 - 0) % 32 = i := by omega
    rw [e]
    simp [h32]
  · have : x.testBit i = false := by
      apply Nat.testBit_lt_two_pow
      exact Nat.lt_of_lt_of_le hx (Nat.pow_le_pow_right (by decide) (by omega))
    simp [*]

theorem wordsTerm_nil : wordsTerm [] = 0 := rfl

theorem wordsTerm_cons (word : Nat) (words : List Nat) :
    wordsTerm (word :: words) =
      rotl32 (ComputeLongHash word) (7 * words.length % 32) ^^^ wordsTerm words := by
  unfold wordsTerm
  rw [List.length_cons, List.range_succ_eq_map, List.map_cons, List.map_map]
  have e : List.map ((fun i => rotl32 (ComputeLongHash ((word :: words).getD i 0))
        (7 * (words.length + 1 - 1 - i) % 32)) ∘ Nat.succ) (List.range words.length) =
      List.map (fun i => rotl32 (ComputeLongHash (words.getD i 0))
        (7 * (words.length - 1 - i) % 32)) (List.range words.length) := by
    apply List.map_congr_left
    intro i _
    have e1 : words.length + 1 - 1 - (i + 1) = words.length - 1 - i := by omega
    simp only [Function.comp, Nat.succ_eq_add_one, List.getD_cons_succ, e1]
  rw [e]
  rfl

theorem wordsTerm_lt (words : List Nat) : wordsTerm words < 2 ^ 32 := by
  induction words with
  | nil => decide
  | cons word words ih =>
    rw [wordsTerm_cons]
    exact Nat.xor_lt_two_pow
      (rotl32_lt _ _ (ComputeLongHash_lt word) (Nat.mod_lt _ (by decide))) ih

theorem loop_eq_closed (words : List Nat) (hash : Nat) (hh : hash < 2 ^ 32) :
    HashBigInt.loop hash words =
      rotl32 hash (7 * words.length % 32) ^^^ wordsTerm words := by
  induction words generalizing hash with
  | nil =>
    rw [wordsTerm_nil, Nat.xor_zero]
    exact (rotl32_zero hash hh).symm
  | cons word words ih =>
    have hk : 7 * words.length % 32 < 32 := Nat.mod_lt _ (by decide)
    have hr := rotl7_lt hash hh
    have hm := ComputeLongHash_lt word
    have e : (7 + 7 * words.length % 32) % 32 = 7 * (words.length + 1) % 32 := by omega
    show HashBigInt.loop (HashBigInt.step hash word) words = _
    rw [ih _ (step_lt hash word hh), step_eq, rotl32_xor _ _ _ hr hm hk, rotl7_eq_rotl32,
      rotl32_rotl32 hash 7 _ hh (by decide) hk, e, wordsTerm_cons, List.length_cons,
      Nat.xor_assoc]

/-! ## Injectivity -/

theorem rotl7_inj (a b : Nat) (ha : a < 2 ^ 32) (hb : b < 2 ^ 32) (h : rotl7 a = rotl7 b) :
    a = b := by
  rw [rotl7_eq_arith a ha, rotl7_eq_arith b hb] at h
  omega

theorem loop_inj (words : List Nat) (a b : Nat) (ha : a < 2 ^ 32) (hb : b < 2 ^ 32)
    (h : HashBigInt.loop a words = HashBigInt.loop b words) : a = b := by
  induction words generalizing a b with
  | nil => exact h
  | cons word words ih =>
    have hs := ih _ _ (step_lt a word ha) (step_lt b word hb) h
    rw [step_eq, step_eq, Nat.xor_left_inj] at hs
    exact rotl7_inj a b ha hb hs

/-- The step `x -> x xor (x >> k)` is injective for `k > 0`. -/
theorem xorshift_inj (k : Nat) (hk : 0 < k) (x y : Nat)
    (h : x ^^^ (x >>> k) = y ^^^ (y >>> k)) : x = y := by
  have hd : (x ^^^ y) ^^^ ((x ^^^ y) >>> k) = 0 := by
    apply Nat.eq_of_testBit_eq
    intro i
    have hi := congrArg (fun t => Nat.testBit t i) h
    simp only [Nat.testBit_xor, Nat.testBit_shiftRight, Nat.zero_testBit] at hi ⊢
    revert hi
    cases x.testBit i <;> cases y.testBit i <;> cases x.testBit (k + i) <;>
      cases y.testBit (k + i) <;> simp
  have he : x ^^^ y = (x ^^^ y) >>> k := Nat.xor_eq_zero.mp hd
  rw [Nat.shiftRight_eq_div_pow] at he
  have h0 : x ^^^ y = 0 := by
    by_contra hne
    have hlt := Nat.div_lt_self (Nat.pos_of_ne_zero hne)
      (Nat.one_lt_two_pow (Nat.pos_iff_ne_zero.mp hk))
    omega
  exact Nat.xor_eq_zero.mp h0

theorem xorshift_lt (k x : Nat) (hx : x < 2 ^ 32) : x ^^^ (x >>> k) < 2 ^ 32 := by
  apply Nat.xor_lt_two_pow hx
  rw [Nat.shiftRight_eq_div_pow]
  exact Nat.lt_of_le_of_lt (Nat.div_le_self _ _) hx

/-- Multiplication by an odd constant is injective modulo `2 ^ 32`. -/
theorem mul_mod_inj (c a b : Nat) (hc : Nat.gcd (2 ^ 32) c = 1) (ha : a < 2 ^ 32)
    (hb : b < 2 ^ 32) (h : (a * c) % 2 ^ 32 = (b * c) % 2 ^ 32) : a = b := by
  have e : a % 2 ^ 32 = b % 2 ^ 32 := Nat.ModEq.cancel_right_of_coprime hc h
  rwa [Nat.mod_eq_of_lt ha, Nat.mod_eq_of_lt hb] at e

theorem line7_eq (a : Nat) (ha : a < 2 ^ 32) :
    (not32 a + (a <<< 15) % 2 ^ 32) % 2 ^ 32 = (a * 32767 + 4294967295) % 2 ^ 32 := by
  simp only [not32, Nat.shiftLeft_eq]
  omega

theorem line9_eq (a : Nat) :
    (a + (a <<< 2) % 2 ^ 32) % 2 ^ 32 = (a * 5) % 2 ^ 32 := by
  simp only [Nat.shiftLeft_eq]
  omega

theorem line7_inj (a b : Nat) (ha : a < 2 ^ 32) (hb : b < 2 ^ 32)
    (h : (not32 a + (a <<< 15) % 2 ^ 32) % 2 ^ 32 = (not32 b + (b <<< 15) % 2 ^ 32) % 2 ^ 32) :
    a = b := by
  rw [line7_eq a ha, line7_eq b hb] at h
  have h2 : (a * 32767) % 2 ^ 32 = (b * 32767) % 2 ^ 32 :=
    Nat.ModEq.add_right_cancel' 4294967295 h
  exact mul_mod_inj 32767 a b (by norm_num) ha hb h2

theorem line9_inj (a b : Nat) (ha : a < 2 ^ 32) (hb : b < 2 ^ 32)
    (h : (a + (a <<< 2) % 2 ^ 32) % 2 ^ 32 = (b + (b <<< 2) % 2 ^ 32) % 2 ^ 32) :
    a = b := by
  rw [line9_eq a, line9_eq b] at h
  exact mul_mod_inj 5 a b (by norm_num) ha hb h

theorem line11_inj (a b : Nat) (ha : a < 2 ^ 32) (hb : b < 2 ^ 32)
    (h : (a * 2057) % 2 ^ 32 = (b * 2057) % 2 ^ 32) : a = b :=
  mul_mod_inj 2057 a b (by norm_num) ha hb h

theorem pre_inj (a b : Nat) (ha : a < 2 ^ 32) (hb : b < 2 ^ 32)
    (h : ComputeUnseededHash.pre a = ComputeUnseededHash.pre b) : a = b := by
  have m : ∀ n : Nat, n % 2 ^ 32 < 2 ^ 32 := fun n => Nat.mod_lt _ (by decide)
  simp only [ComputeUnseededHash.pre] at h
  have h6 := xorshift_inj 16 (by decide) _ _ h
  have h5 := line11_inj _ _ (xorshift_lt 4 _ (m _)) (xorshift_lt 4 _ (m _)) h6
  have h4 := xorshift_inj 4 (by decide) _ _ h5
  have h3 := line9_inj _ _ (xorshift_lt 12 _ (m _)) (xorshift_lt 12 _ (m _)) h4
  have h2 := xorshift_inj 12 (by decide) _ _ h3
  exact line7_inj a b ha hb h2

theorem pre_lt (a : Nat) : ComputeUnseededHash.pre a < 2 ^ 32 :=
  xorshift_lt 16 _ (Nat.mod_lt _ (by decide))

theorem ComputeUnseededHash_eq_pre_mod (a : Nat) :
    ComputeUnseededHash a = ComputeUnseededHash.pre a % 2 ^ 30 := by
  have e := Nat.and_pow_two_sub_one_eq_mod (ComputeUnseededHash.pre a) 30
  norm_num at e
  exact e

/-! ## The boundary conversion -/

theorem bitCastInt32_of_le (hash : Nat) (h : hash ≤ 0x3FFFFFFF) :
    bitCastInt32 hash = (hash : Int) := by
  unfold bitCastInt32
  rw [if_pos (by omega)]

theorem bitCastInt32_bounds (hash : Nat) (h : hash < 2 ^ 32) :
    -2 ^ 31 ≤ bitCastInt32 hash ∧ bitCastInt32 hash < 2 ^ 31 := by
  unfold bitCastInt32
  split <;> constructor <;> omega

theorem HashNumber_le (std_hash_double : Nat → Nat) (number_key : Number) :
    HashNumber std_hash_double number_key ≤ 0x3FFFFFFF := by
  unfold HashNumber
  split
  · exact ComputeUnseededHash_le _
  · split
    · exact ComputeUnseededHash_le _
    · exact ComputeLongHash_le _

/-! ## The claims -/

/-- Claim C1, as the code has it: for every sign and every sequence of words `HashBigInt`
returns a 32-bit value, which is at most `0x3FFFFFFF` when there are no words; the
callback `hashBigInt` hands back that value reinterpreted as a signed 32-bit integer,
between `-2^31` and `2^31 - 1`, and between `0` and `0x3FFFFFFF` when there are no
words. -/
theorem HashBigInt_range (sign_bit : Int) (words : List Nat) (rest : List Value) :
    HashBigInt ⟨sign_bit, words⟩ < 2 ^ 32 ∧
    HashBigInt ⟨sign_bit, []⟩ ≤ 0x3FFFFFFF ∧
    Callback.HashBigInt (Value.bigint ⟨sign_bit, words⟩ :: rest) =
      some ⟨none, some (bitCastInt32 (HashBigInt ⟨sign_bit, words⟩))⟩ ∧
    -2 ^ 31 ≤ bitCastInt32 (HashBigInt ⟨sign_bit, words⟩) ∧
    bitCastInt32 (HashBigInt ⟨sign_bit, words⟩) < 2 ^ 31 ∧
    0 ≤ bitCastInt32 (HashBigInt ⟨sign_bit, []⟩) ∧
    bitCastInt32 (HashBigInt ⟨sign_bit, []⟩) ≤ 0x3FFFFFFF := by
  have hlt := HashBigInt_lt ⟨sign_bit, words⟩
  have hle : HashBigInt ⟨sign_bit, []⟩ ≤ 0x3FFFFFFF := ComputeUnseededHash_le _
  have hb := bitCastInt32_bounds _ hlt
  have he := bitCastInt32_of_le _ hle
  refine ⟨hlt, hle, rfl, hb.1, hb.2, ?_, ?_⟩
  · rw [he]; omega
  · rw [he]; omega

/-- Claim C1 fails as stated: for the BigInt `1` (sign 0, one word 1) `HashBigInt`
returns `0x44B40E39`, above `0x3FFFFFFF`; for the BigInt `2^64` (sign 0, words 0 and 1) it
returns `0x92A8C881`, and the callback hands back the negative value `-1834432383`. -/
theorem HashBigInt_range_counterexample :
    HashBigInt ⟨0, [1]⟩ = 0x44B40E39 ∧
    ¬ (HashBigInt ⟨0, [1]⟩ ≤ 0x3FFFFFFF) ∧
    HashBigInt ⟨0, [0, 1]⟩ = 0x92A8C881 ∧
    ¬ (HashBigInt ⟨0, [0, 1]⟩ ≤ 0x3FFFFFFF) ∧
    Callback.HashBigInt [Value.bigint ⟨0, [0, 1]⟩] = some ⟨none, some (-1834432383)⟩ := by
  refine ⟨by decide, by decide, by decide, by decide, rfl⟩

/-- Claim C2: `ComputeUnseededHash`, `ComputeLongHash` and `ComputeSeededHash` return at
most `0x3FFFFFFF` on every input, and so does every hash of a Number, a Boolean and a
Nullish value, at the typed hasher and at the callbacks. -/
theorem mixers_range (key seed : Nat) (std_hash_double : Nat → Nat) (number_key : Number)
    (value : Bool) (rest : List Value) :
    ComputeUnseededHash key ≤ 0x3FFFFFFF ∧
    ComputeLongHash key ≤ 0x3FFFFFFF ∧
    ComputeSeededHash key seed ≤ 0x3FFFFFFF ∧
    HashNumber std_hash_double number_key ≤ 0x3FFFFFFF ∧
    (∃ hash : Nat, hash ≤ 0x3FFFFFFF ∧
      Callback.HashNumber std_hash_double (Value.number number_key :: rest) =
        some ⟨none, some (hash : Int)⟩) ∧
    (∃ hash : Nat, hash ≤ 0x3FFFFFFF ∧
      Callback.HashUnknown std_hash_double (Value.number number_key :: rest) =
        some ⟨none, some (hash : Int)⟩) ∧
    (∃ hash : Nat, hash ≤ 0x3FFFFFFF ∧
      Callback.HashUnknown std_hash_double (Value.boolean value :: rest) =
        some ⟨none, some (hash : Int)⟩) ∧
    (∃ hash : Nat, hash ≤ 0x3FFFFFFF ∧
      Callback.HashUnknown std_hash_double (Value.null :: rest) =
        some ⟨none, some (hash : Int)⟩) ∧
    (∃ hash : Nat, hash ≤ 0x3FFFFFFF ∧
      Callback.HashUnknown std_hash_double (Value.undefined :: rest) =
        some ⟨none, some (hash : Int)⟩) := by
  have hn := HashNumber_le std_hash_double number_key
  have hb := ComputeUnseededHash_le (if value then 1 else 0)
  have hz := ComputeUnseededHash_le 0
  refine ⟨ComputeUnseededHash_le key, ComputeLongHash_le key, ComputeLongHash_le _, hn,
    ⟨_, hn, ?_⟩, ⟨_, hn, ?_⟩, ⟨_, hb, ?_⟩, ⟨_, hz, ?_⟩, ⟨_, hz, ?_⟩⟩
  · rw [← bitCastInt32_of_le _ hn]; rfl
  · rw [← bitCastInt32_of_le _ hn]; rfl
  · rw [← bitCastInt32_of_le _ hb]; rfl
  · rw [← bitCastInt32_of_le _ hz]; rfl
  · rw [← bitCastInt32_of_le _ hz]; rfl

/-- Claim C3, as the code has it: `ComputeUnseededHash(0)` is `178506403`, hex
`0x0AA3CAA3`, and so is the specification's own `mix32` at `0`. -/
theorem ComputeUnseededHash_zero :
    ComputeUnseededHash 0 = 178506403 ∧ (178506403 : Nat) = 0x0AA3CAA3 ∧
    (Spec.mix32 0).toNat = 178506403 := by
  decide

/-- Claim C3 fails as stated: `ComputeUnseededHash(0)` is not `278409624`. -/
theorem ComputeUnseededHash_zero_counterexample : ComputeUnseededHash 0 ≠ 278409624 := by
  decide

/-- Claim C4: on every 32-bit key `ComputeUnseededHash` is the specification's `mix32`,
computed modulo `2^32` with logical right shifts. -/
theorem ComputeUnseededHash_refines_mix32 (key : BitVec 32) :
    ComputeUnseededHash key.toNat = (Spec.mix32 key).toNat :=
  ComputeUnseededHash_eq_mix32 key

/-- Claim C5: on every 64-bit key `ComputeLongHash` is the specification's `mix64`; the
order of the code (mask the 64-bit value, then narrow to 32 bits) and the order of the
specification (truncate to 32 bits, then mask) give the same result. -/
theorem ComputeLongHash_refines_mix64 (key : BitVec 64) (h : Nat) :
    ComputeLongHash key.toNat = (Spec.mix64 key).toNat ∧
    (h &&& 0x3fffffff) % 2 ^ 32 = h % 2 ^ 32 &&& 0x3fffffff :=
  ⟨ComputeLongHash_eq_mix64 key, mask_narrow h⟩

/-- Claim C6: for every sign and every sequence of 64-bit words `HashBigInt` is the left
fold of `h -> rotate_left(h, 7) xor mix64(word)` over the words in order, started from
`mix32(sign)`; and the expression `(hash << 7) | (hash >> 25)` of the code is the 32-bit
left rotation by 7: bit `i` of it is bit `i - 7` modulo 32 of `hash`. -/
theorem HashBigInt_refines_fold (sign_bit : Int) (words : List (BitVec 64)) (h : BitVec 32)
    (i : Nat) :
    HashBigInt ⟨sign_bit, words.map BitVec.toNat⟩ =
      (Spec.hashBigInt (BitVec.ofInt 32 sign_bit) words).toNat ∧
    HashBigInt ⟨sign_bit, words.map BitVec.toNat⟩ =
      (words.map BitVec.toNat).foldl HashBigInt.step (ComputeUnseededHash (toUint32 sign_bit)) ∧
    ((h.toNat <<< 7) % 2 ^ 32 ||| h.toNat >>> 25) = (BitVec.rotateLeft h 7).toNat ∧
    ((h.toNat <<< 7) % 2 ^ 32 ||| h.toNat >>> 25).testBit i =
      (decide (i < 32) && h.toNat.testBit ((i + 25) % 32)) :=
  ⟨HashBigInt_eq_spec sign_bit words, loop_eq_foldl _ _, rotl7_eq_rotateLeft h,
    rotl7_testBit h.toNat h.isLt i⟩

/-- Claim C7, as the code has it: with no words `HashBigInt` returns
`ComputeUnseededHash(sign)` unchanged; with sign 0 and no words that is
`ComputeUnseededHash(0)`, which is `178506403`. -/
theorem HashBigInt_empty (sign_bit : Int) :
    HashBigInt ⟨sign_bit, []⟩ = ComputeUnseededHash (toUint32 sign_bit) ∧
    HashBigInt ⟨0, []⟩ = ComputeUnseededHash 0 ∧
    HashBigInt ⟨0, []⟩ = 178506403 :=
  ⟨rfl, rfl, by decide⟩

/-- Claim C7 fails as stated: with sign 0 and no words `HashBigInt` does not return
`278409624`. -/
theorem HashBigInt_empty_counterexample : HashBigInt ⟨0, []⟩ ≠ 278409624 := by
  decide

/-- Claim C8: for every sign and all words `A`, `B`, the hashes of `[A, B]` and `[B, A]`
differ when `ComputeLongHash A` and `ComputeLongHash B` differ, and they are equal
exactly when `ComputeLongHash A = ComputeLongHash B`. -/
theorem HashBigInt_order (sign_bit : Int) (A B : Nat) :
    (ComputeLongHash A ≠ ComputeLongHash B →
      HashBigInt ⟨sign_bit, [A, B]⟩ ≠ HashBigInt ⟨sign_bit, [B, A]⟩) ∧
    (HashBigInt ⟨sign_bit, [A, B]⟩ = HashBigInt ⟨sign_bit, [B, A]⟩ ↔
      ComputeLongHash A = ComputeLongHash B) := by
  have key : HashBigInt ⟨sign_bit, [A, B]⟩ = HashBigInt ⟨sign_bit, [B, A]⟩ ↔
      ComputeLongHash A = ComputeLongHash B := by
    have ha : ComputeLongHash A < 2 ^ 30 :=
      Nat.lt_of_le_of_lt (ComputeLongHash_le A) (by decide)
    have hb : ComputeLongHash B < 2 ^ 30 :=
      Nat.lt_of_le_of_lt (ComputeLongHash_le B) (by decide)
    exact swap_iff _ _ _ (ComputeUnseededHash_lt (toUint32 sign_bit)) ha hb
  exact ⟨fun hne heq => hne (key.mp heq), key⟩

/-- Claim C8 at sign 0 and the words 1 and 2. -/
theorem HashBigInt_order_witness :
    ComputeLongHash 1 ≠ ComputeLongHash 2 ∧
    HashBigInt ⟨0, [1, 2]⟩ ≠ HashBigInt ⟨0, [2, 1]⟩ :=
  ⟨by decide, (HashBigInt_order 0 1 2).1 (by decide)⟩

/-- Claim C9, as the code has it: `HashNumber` hashes the `int32` bit pattern with `mix32`
when the value is an `int32`, else the `uint32` with `mix32` when it is a `uint32`, and
else applies `mix64` to `std::hash<double>` of the value, whatever the standard library
in use makes of it. -/
theorem HashNumber_branches (std_hash_double : Nat → Nat) (number_key : Number)
    (h32 : number_key.Uint32Value < 2 ^ 32)
    (h64 : std_hash_double number_key.NumberValue < 2 ^ 64) :
    HashNumber std_hash_double number_key =
      if number_key.IsInt32 then
        (Spec.mix32 (BitVec.ofInt 32 number_key.Int32Value)).toNat
      else if number_key.IsUint32 then
        (Spec.mix32 (BitVec.ofNat 32 number_key.Uint32Value)).toNat
      else
        (Spec.mix64 (BitVec.ofNat 64 (std_hash_double number_key.NumberValue))).toNat := by
  have e32 : (BitVec.ofNat 32 number_key.Uint32Value).toNat = number_key.Uint32Value := by
    rw [BitVec.toNat_ofNat]; exact Nat.mod_eq_of_lt h32
  have e64 : (BitVec.ofNat 64 (std_hash_double number_key.NumberValue)).toNat =
      std_hash_double number_key.NumberValue := by
    rw [BitVec.toNat_ofNat]; exact Nat.mod_eq_of_lt h64
  rw [← ComputeUnseededHash_eq_mix32, ← ComputeUnseededHash_eq_mix32,
    ← ComputeLongHash_eq_mix64, e32, e64, ← toUint32_eq_ofInt]
  rfl

/-- Claim C9 as the code has it, at the double `0.5` (bit pattern `0x3FE0000000000000`)
under the FNV-1a `std::hash<double>`. -/
theorem HashNumber_branches_witness :
    HashNumber msvc_hash_double ⟨false, 0, false, 0, 0x3FE0000000000000⟩ =
      (Spec.mix64 (BitVec.ofNat 64 (msvc_hash_double 0x3FE0000000000000))).toNat :=
  HashNumber_branches msvc_hash_double ⟨false, 0, false, 0, 0x3FE0000000000000⟩
    (by decide) (by decide)

/-- Claim C9 fails as stated: for the double `0.5`, neither an `int32` nor a `uint32`,
under the FNV-1a `std::hash<double>` the code returns `922657902`, while `mix64` of the
IEEE-754 bit pattern `0x3FE0000000000000` is `812997866`. -/
theorem HashNumber_branches_counterexample :
    HashNumber msvc_hash_double ⟨false, 0, false, 0, 0x3FE0000000000000⟩ = 922657902 ∧
    ComputeLongHash 0x3FE0000000000000 = 812997866 ∧
    (Spec.mix64 0x3FE0000000000000).toNat = 812997866 ∧
    HashNumber msvc_hash_double ⟨false, 0, false, 0, 0x3FE0000000000000⟩ ≠
      ComputeLongHash 0x3FE0000000000000 := by
  decide

/-- Claim C10: on a first argument of kind Number, Identifier, ArbitraryPrecisionInteger,
ObjectRef, Boolean or Nullish, `hashUnknown` schedules no exception and hands back the
hash of the typed hasher of that kind; it agrees with `hashNumber`, `hashString` and
`hashSymbol`, `hashBigInt` and `hashObject` on the kinds they accept. -/
theorem HashUnknown_recognized (std_hash_double : Nat → Nat) (key : Value)
    (rest : List Value)
    (hk : (key.IsNumber || key.IsName || key.IsBigInt || key.IsObject || key.IsBoolean ||
      key.IsNullOrUndefined) = true) :
    (∃ hash, Spec.hash_unknown std_hash_double key = some hash ∧
      Callback.HashUnknown std_hash_double (key :: rest) =
        some ⟨none, some (bitCastInt32 hash)⟩) ∧
    (key.IsNumber = true → Callback.HashUnknown std_hash_double (key :: rest) =
      Callback.HashNumber std_hash_double (key :: rest)) ∧
    (key.IsName = true → Callback.HashUnknown std_hash_double (key :: rest) =
      Callback.HashName (key :: rest)) ∧
    (key.IsBigInt = true → Callback.HashUnknown std_hash_double (key :: rest) =
      Callback.HashBigInt (key :: rest)) ∧
    (key.IsObject = true → Callback.HashUnknown std_hash_double (key :: rest) =
      Callback.HashObject (key :: rest)) := by
  cases key with
  | other => simp [Value.IsNumber, Value.IsName, Value.IsBigInt, Value.IsObject,
      Value.IsBoolean, Value.IsNullOrUndefined] at hk
  | number n => exact ⟨⟨_, rfl, rfl⟩, fun _ => rfl, by simp [Value.IsName],
      by simp [Value.IsBigInt], by simp [Value.IsObject]⟩
  | string n => exact ⟨⟨_, rfl, rfl⟩, by simp [Value.IsNumber], fun _ => rfl,
      by simp [Value.IsBigInt], by simp [Value.IsObject]⟩
  | symbol n => exact ⟨⟨_, rfl, rfl⟩, by simp [Value.IsNumber], fun _ => rfl,
      by simp [Value.IsBigInt], by simp [Value.IsObject]⟩
  | bigint b => exact ⟨⟨_, rfl, rfl⟩, by simp [Value.IsNumber], by simp [Value.IsName],
      fun _ => rfl, by simp [Value.IsObject]⟩
  | object o => exact ⟨⟨_, rfl, rfl⟩, by simp [Value.IsNumber], by simp [Value.IsName],
      by simp [Value.IsBigInt], fun _ => rfl⟩
  | boolean v => exact ⟨⟨_, rfl, rfl⟩, by simp [Value.IsNumber], by simp [Value.IsName],
      by simp [Value.IsBigInt], by simp [Value.IsObject]⟩
  | null => exact ⟨⟨_, rfl, rfl⟩, by simp [Value.IsNumber], by simp [Value.IsName],
      by simp [Value.IsBigInt], by simp [Value.IsObject]⟩
  | undefined => exact ⟨⟨_, rfl, rfl⟩, by simp [Value.IsNumber], by simp [Value.IsName],
      by simp [Value.IsBigInt], by simp [Value.IsObject]⟩

/-- Claim C10 at the value `true`: no exception, and the hash `ComputeUnseededHash(1)`,
which is `316017654`. -/
theorem HashUnknown_recognized_witness :
    Spec.hash_unknown (fun bits => bits) (Value.boolean true) = some 316017654 ∧
    Callback.HashUnknown (fun bits => bits) [Value.boolean true] =
      some ⟨none, some 316017654⟩ := by
  obtain ⟨hash, h1, h2⟩ :=
    (HashUnknown_recognized (fun bits => bits) (Value.boolean true) [] (by decide)).1
  have e : Spec.hash_unknown (fun bits => bits) (Value.boolean true) = some 316017654 := by
    decide
  have eh : hash = 316017654 := by
    rw [e] at h1; exact (Option.some.inj h1).symm
  subst eh
  exact ⟨h1, h2⟩

/-- Claim C11: through `hashUnknown`, `false` hashes to `mix32(0)`, `true` to `mix32(1)`,
and `null` and `undefined` both to `mix32(0)`, with no exception. -/
theorem HashUnknown_literals (std_hash_double : Nat → Nat) (rest : List Value) :
    Callback.HashUnknown std_hash_double (Value.boolean false :: rest) =
      some ⟨none, some (ComputeUnseededHash 0 : Nat)⟩ ∧
    Callback.HashUnknown std_hash_double (Value.boolean true :: rest) =
      some ⟨none, some (ComputeUnseededHash 1 : Nat)⟩ ∧
    Callback.HashUnknown std_hash_double (Value.null :: rest) =
      some ⟨none, some (ComputeUnseededHash 0 : Nat)⟩ ∧
    Callback.HashUnknown std_hash_double (Value.undefined :: rest) =
      some ⟨none, some (ComputeUnseededHash 0 : Nat)⟩ ∧
    Callback.HashUnknown std_hash_double (Value.null :: rest) =
      Callback.HashUnknown std_hash_double (Value.undefined :: rest) ∧
    ComputeUnseededHash 0 = (Spec.mix32 0).toNat ∧
    ComputeUnseededHash 1 = (Spec.mix32 1).toNat := by
  have h0 := bitCastInt32_of_le _ (ComputeUnseededHash_le 0)
  have h1 := bitCastInt32_of_le _ (ComputeUnseededHash_le 1)
  refine ⟨?_, ?_, ?_, ?_, rfl, by decide, by decide⟩
  · rw [← h0]; rfl
  · rw [← h1]; rfl
  · rw [← h0]; rfl
  · rw [← h0]; rfl

/-- Claim C12: on a first argument that passes none of the six kind tests `hashUnknown`
schedules the exception `Invalid arguments`, so its caller gets that exception thrown and
no return value, in particular no hash 0. The callback does not return after
`ThrowException` and line 159 still hands 0, the initial `hash`, to
`GetReturnValue().Set`; V8 drops it, the exception being scheduled. -/
theorem HashUnknown_unrecognized (std_hash_double : Nat → Nat) (key : Value)
    (rest : List Value) (hk : Spec.recognized key = false) :
    ∃ info, Callback.HashUnknown std_hash_double (key :: rest) = some info ∧
      info = ⟨some "Invalid arguments", some 0⟩ ∧
      info.exception = some "Invalid arguments" ∧
      info.completion = CallbackInfo.Completion.throws "Invalid arguments" ∧
      ∀ value, info.completion ≠ CallbackInfo.Completion.returns value := by
  cases key with
  | other =>
    refine ⟨_, rfl, rfl, rfl, rfl, ?_⟩
    intro value h
    cases h
  | number n => cases hk
  | string n => cases hk
  | symbol n => cases hk
  | bigint b => cases hk
  | object o => cases hk
  | boolean v => cases hk
  | null => cases hk
  | undefined => cases hk

/-- Claim C12 at a value that passes none of the kind tests: the caller gets the exception
`Invalid arguments`. -/
theorem HashUnknown_unrecognized_witness :
    Spec.recognized Value.other = false ∧
    ∃ info, Callback.HashUnknown (fun bits => bits) [Value.other] = some info ∧
      info.completion = CallbackInfo.Completion.throws "Invalid arguments" :=
  have h := HashUnknown_unrecognized (fun bits => bits) Value.other [] rfl
  ⟨rfl, h.choose, h.choose_spec.1, h.choose_spec.2.2.2.1⟩

/-- Claim C13, what the code does: called with no argument, `hashUnknown` schedules the
exception, then hashes `args[0]`, which is `undefined`, with `ComputeUnseededHash(0)`
and sets `178506403` as the return value; the typed callbacks schedule the exception and
then run their typed hasher on the cast of `undefined`, or of a value of another kind,
which is undefined behaviour. -/
theorem callbacks_continue_after_exception (std_hash_double : Nat → Nat)
    (number_key : Number) :
    Callback.HashUnknown std_hash_double [] =
      some ⟨some "Invalid arguments", some 178506403⟩ ∧
    (Callback.HashBigInt.guard []).exception = some "Invalid arguments" ∧
    Callback.HashBigInt [] = none ∧
    (Callback.HashBigInt.guard [Value.number number_key]).exception =
      some "Invalid arguments" ∧
    Callback.HashBigInt [Value.number number_key] = none ∧
    Callback.HashNumber std_hash_double [] = none ∧
    Callback.HashName [] = none ∧
    Callback.HashObject [] = none :=
  ⟨rfl, rfl, rfl, rfl, rfl, rfl, rfl, rfl⟩

/-- Claim C14: each typed callback schedules the exception `Invalid arguments` exactly
when no argument is supplied or the first argument is not of the kind it accepts, and
`hashUnknown` exactly when no argument is supplied or the first argument is of none of the
six kinds; `hashString` and `hashSymbol` are both `HashName`, which accepts the names. -/
theorem InvalidArgument_iff (std_hash_double : Nat → Nat) (args : List Value) :
    ((Callback.HashBigInt.body args).info.exception =
        (if Spec.invalidArgument Value.IsBigInt args then some "Invalid arguments"
          else none) ∧
      Callback.HashBigInt args = (Callback.HashBigInt.body args).final ∧
      (Init std_hash_double).lookup "hashBigInt" = some Callback.HashBigInt) ∧
    ((Callback.HashNumber.body std_hash_double args).info.exception =
        (if Spec.invalidArgument Value.IsNumber args then some "Invalid arguments"
          else none) ∧
      Callback.HashNumber std_hash_double args =
        (Callback.HashNumber.body std_hash_double args).final ∧
      (Init std_hash_double).lookup "hashNumber" =
        some (Callback.HashNumber std_hash_double)) ∧
    ((Callback.HashName.body args).info.exception =
        (if Spec.invalidArgument Value.IsName args then some "Invalid arguments"
          else none) ∧
      Callback.HashName args = (Callback.HashName.body args).final ∧
      (Init std_hash_double).lookup "hashString" = some Callback.HashName ∧
      (Init std_hash_double).lookup "hashSymbol" = some Callback.HashName) ∧
    ((Callback.HashObject.body args).info.exception =
        (if Spec.invalidArgument Value.IsObject args then some "Invalid arguments"
          else none) ∧
      Callback.HashObject args = (Callback.HashObject.body args).final ∧
      (Init std_hash_double).lookup "hashObject" = some Callback.HashObject) ∧
    ((∃ info, Callback.HashUnknown std_hash_double args = some info ∧
        info.exception =
          (if Spec.invalidArgument Spec.recognized args then some "Invalid arguments"
            else none) ∧
        info.completion =
          (if Spec.invalidArgument Spec.recognized args then
            CallbackInfo.Completion.throws "Invalid arguments"
          else CallbackInfo.Completion.returns info.returnValue)) ∧
      (Init std_hash_double).lookup "hashUnknown" =
        some (Callback.HashUnknown std_hash_double)) := by
  cases args with
  | nil =>
    exact ⟨⟨rfl, rfl, rfl⟩, ⟨rfl, rfl, rfl⟩, ⟨rfl, rfl, rfl, rfl⟩, ⟨rfl, rfl, rfl⟩,
      ⟨⟨_, rfl, rfl, rfl⟩, rfl⟩⟩
  | cons key rest =>
    cases key <;>
      exact ⟨⟨rfl, rfl, rfl⟩, ⟨rfl, rfl, rfl⟩, ⟨rfl, rfl, rfl, rfl⟩, ⟨rfl, rfl, rfl⟩,
        ⟨⟨_, rfl, rfl, rfl⟩, rfl⟩⟩

/-- Claim C15: for every identity tag `t`, a signed 32-bit integer, `HashObject` and
`HashName` return `t` reinterpreted as `uint32` and nothing else, the callbacks hand back
`t` itself, so the same object hashes the same each time, and `hashString` and
`hashSymbol` are one callback. -/
theorem identity_hash_passthrough (std_hash_double : Nat → Nat) (t : Int)
    (rest : List Value) (hlo : -2 ^ 31 ≤ t) (hhi : t < 2 ^ 31) :
    HashObject ⟨t⟩ = (if 0 ≤ t then t.toNat else (t + 2 ^ 32).toNat) ∧
    HashName ⟨t⟩ = (if 0 ≤ t then t.toNat else (t + 2 ^ 32).toNat) ∧
    bitCastInt32 (HashObject ⟨t⟩) = t ∧
    bitCastInt32 (HashName ⟨t⟩) = t ∧
    Callback.HashObject (Value.object ⟨t⟩ :: rest) = some ⟨none, some t⟩ ∧
    Callback.HashName (Value.string ⟨t⟩ :: rest) = some ⟨none, some t⟩ ∧
    Callback.HashName (Value.symbol ⟨t⟩ :: rest) = some ⟨none, some t⟩ ∧
    Callback.HashUnknown std_hash_double (Value.object ⟨t⟩ :: rest) = some ⟨none, some t⟩ ∧
    (Init std_hash_double).lookup "hashString" = some Callback.HashName ∧
    (Init std_hash_double).lookup "hashSymbol" = some Callback.HashName ∧
    (Init std_hash_double).lookup "hashObject" = some Callback.HashObject := by
  have e : toUint32 t = (if 0 ≤ t then t.toNat else (t + 2 ^ 32).toNat) := by
    unfold toUint32
    split <;> omega
  have eb : bitCastInt32 (toUint32 t) = t := by
    rw [e]
    unfold bitCastInt32
    split <;> split <;> omega
  have eo : HashObject ⟨t⟩ = toUint32 t := rfl
  have en : HashName ⟨t⟩ = toUint32 t := rfl
  refine ⟨eo.trans e, en.trans e, eb, eb, ?_, ?_, ?_, ?_, rfl, rfl, rfl⟩
  · exact congrArg (fun r => some (CallbackInfo.mk none (some r))) eb
  · exact congrArg (fun r => some (CallbackInfo.mk none (some r))) eb
  · exact congrArg (fun r => some (CallbackInfo.mk none (some r))) eb
  · exact congrArg (fun r => some (CallbackInfo.mk none (some r))) eb

/-- Claim C15 at the identity tag `-5`: the hash is `4294967291` and the callback hands
back `-5`. -/
theorem identity_hash_passthrough_witness :
    HashObject ⟨-5⟩ = 4294967291 ∧ Callback.HashObject [Value.object ⟨-5⟩] =
      some ⟨none, some (-5)⟩ :=
  have h := identity_hash_passthrough (fun bits => bits) (-5) [] (by decide) (by decide)
  ⟨h.1, h.2.2.2.2.1⟩

/-- Claim C16: for `0 <= n < 2^31` the `int32` branch and the `uint32` branch of
`HashNumber` return the same hash, `ComputeUnseededHash(n)`; for a negative `int32` `m`
the `int32` branch hashes the two's complement pattern `m + 2^32`. -/
theorem HashNumber_forms (std_hash_double : Nat → Nat) (n m : Int)
    (nIsUint32 mIsUint32 : Bool) (nUint32Value mUint32Value nBits mBits : Nat)
    (hn0 : 0 ≤ n) (hn1 : n < 2 ^ 31) (hm0 : -2 ^ 31 ≤ m) (hm1 : m < 0) :
    HashNumber std_hash_double ⟨true, n, nIsUint32, nUint32Value, nBits⟩ =
      ComputeUnseededHash n.toNat ∧
    HashNumber std_hash_double ⟨false, n, true, n.toNat, nBits⟩ =
      ComputeUnseededHash n.toNat ∧
    HashNumber std_hash_double ⟨true, n, nIsUint32, nUint32Value, nBits⟩ =
      HashNumber std_hash_double ⟨false, n, true, n.toNat, nBits⟩ ∧
    HashNumber std_hash_double ⟨true, m, mIsUint32, mUint32Value, mBits⟩ =
      ComputeUnseededHash (m + 2 ^ 32).toNat := by
  have en : toUint32 n = n.toNat := by unfold toUint32; omega
  have em : toUint32 m = (m + 2 ^ 32).toNat := by unfold toUint32; omega
  have a : HashNumber std_hash_double ⟨true, n, nIsUint32, nUint32Value, nBits⟩ =
      ComputeUnseededHash n.toNat := by
    simp [HashNumber, en]
  have b : HashNumber std_hash_double ⟨false, n, true, n.toNat, nBits⟩ =
      ComputeUnseededHash n.toNat := by
    simp [HashNumber]
  refine ⟨a, b, a.trans b.symm, ?_⟩
  simp [HashNumber, em]

/-- Claim C16 at `n = 5` and `m = -1`: both forms of 5 hash to `ComputeUnseededHash(5)`,
and -1 hashes as `0xFFFFFFFF`. -/
theorem HashNumber_forms_witness :
    HashNumber msvc_hash_double ⟨true, 5, true, 5, 0x4014000000000000⟩ =
      HashNumber msvc_hash_double ⟨false, 5, true, 5, 0x4014000000000000⟩ ∧
    HashNumber msvc_hash_double ⟨true, -1, false, 0xFFFFFFFF, 0xBFF0000000000000⟩ =
      ComputeUnseededHash 0xFFFFFFFF :=
  have h := HashNumber_forms msvc_hash_double 5 (-1) true false 5 0xFFFFFFFF
    0x4014000000000000 0xBFF0000000000000 (by decide) (by decide) (by decide) (by decide)
  ⟨h.2.2.1, h.2.2.2⟩

/-- Claim C17: under wraparound the forms in the comments are the expressions of the
code: on `uint32_t`, `~h + (h << 15)` is `(h << 15) - h - 1` and `h * 2057` is
`(h + (h << 3)) + (h << 11)`; on `uint64_t`, `~g + (g << 18)` is `(g << 18) - g - 1` and
`g * 21` is `(g + (g << 2)) + (g << 4)`. -/
theorem comment_forms (h g : Nat) (hh : h < 2 ^ 32) (hg : g < 2 ^ 64) :
    (not32 h + (h <<< 15) % 2 ^ 32) % 2 ^ 32 = ComputeUnseededHash.comment7 h ∧
    (h * 2057) % 2 ^ 32 = ComputeUnseededHash.comment11 h ∧
    (not64 g + (g <<< 18) % 2 ^ 64) % 2 ^ 64 = ComputeLongHash.comment18 g ∧
    (g * 21) % 2 ^ 64 = ComputeLongHash.comment20 g := by
  simp only [ComputeUnseededHash.comment7, ComputeUnseededHash.comment11,
    ComputeLongHash.comment18, ComputeLongHash.comment20, sub32, sub64, not32, not64,
    Nat.shiftLeft_eq]
  refine ⟨?_, ?_, ?_, ?_⟩ <;> omega

/-- Claim C17 at `h = 0xFFFFFFFF` and `g = 0xFFFFFFFFFFFFFFFF`, where every sum wraps. -/
theorem comment_forms_witness :
    (not32 0xFFFFFFFF + (0xFFFFFFFF <<< 15) % 2 ^ 32) % 2 ^ 32 =
      ComputeUnseededHash.comment7 0xFFFFFFFF ∧
    (0xFFFFFFFF * 2057) % 2 ^ 32 = ComputeUnseededHash.comment11 0xFFFFFFFF ∧
    (not64 0xFFFFFFFFFFFFFFFF + (0xFFFFFFFFFFFFFFFF <<< 18) % 2 ^ 64) % 2 ^ 64 =
      ComputeLongHash.comment18 0xFFFFFFFFFFFFFFFF ∧
    (0xFFFFFFFFFFFFFFFF * 21) % 2 ^ 64 = ComputeLongHash.comment20 0xFFFFFFFFFFFFFFFF :=
  comment_forms 0xFFFFFFFF 0xFFFFFFFFFFFFFFFF (by decide) (by decide)

/-- Claim C18: for every sign and every sequence of words `w_0 .. w_(n-1)`,
`HashBigInt` is `rotl32(mix32(sign), 7n mod 32)` combined by exclusive or with every
`rotl32(mix64(w_i), 7(n-1-i) mod 32)`, where `rotl32` is the 32-bit left rotation. -/
theorem HashBigInt_closed_form (bigint_key : BigInt) (x : BitVec 32) (k : Nat) :
    HashBigInt bigint_key = closedForm bigint_key ∧
    closedForm bigint_key =
      rotl32 (ComputeUnseededHash (toUint32 bigint_key.sign_bit))
          (7 * bigint_key.words.length % 32) ^^^
        xorAll ((List.range bigint_key.words.length).map fun i =>
          rotl32 (ComputeLongHash (bigint_key.words.getD i 0))
            (7 * (bigint_key.words.length - 1 - i) % 32)) ∧
    rotl32 x.toNat (k % 32) = (BitVec.rotateLeft x k).toNat :=
  ⟨loop_eq_closed _ _ (ComputeUnseededHash_lt _), rfl, by
    simp [rotl32, BitVec.rotateLeft, BitVec.rotateLeftAux]⟩

/-- Claim C19: for every sequence of words, of any length, `HashBigInt` with sign 0 and
`HashBigInt` with sign 1 differ. -/
theorem HashBigInt_sign (words : List Nat) :
    HashBigInt ⟨0, words⟩ ≠ HashBigInt ⟨1, words⟩ ∧
    ComputeUnseededHash (toUint32 0) ≠ ComputeUnseededHash (toUint32 1) := by
  have hne : ComputeUnseededHash (toUint32 0) ≠ ComputeUnseededHash (toUint32 1) := by
    decide
  refine ⟨fun h => hne ?_, hne⟩
  exact loop_inj words _ _ (ComputeUnseededHash_lt _) (ComputeUnseededHash_lt _) h

/-- Claim C19 at the magnitude `2^64`, words 0 and 1: the hashes of `2^64` and `-2^64`
differ. -/
theorem HashBigInt_sign_witness : HashBigInt ⟨0, [0, 1]⟩ ≠ HashBigInt ⟨1, [0, 1]⟩ :=
  (HashBigInt_sign [0, 1]).1

/-- Claim C20: the value of `hash` before the mask is injective on the 32-bit keys, and
`ComputeUnseededHash` is its low 30 bits; so two keys have the same hash exactly when
their values before the mask agree outside the top two bits, and the hash together with
those two bits determines the key. -/
theorem pre_injective (a b : Nat) (ha : a < 2 ^ 32) (hb : b < 2 ^ 32) :
    (a ≠ b → ComputeUnseededHash.pre a ≠ ComputeUnseededHash.pre b) ∧
    ComputeUnseededHash a = ComputeUnseededHash.pre a &&& 0x3fffffff ∧
    ComputeUnseededHash.pre a < 2 ^ 32 ∧
    (ComputeUnseededHash a = ComputeUnseededHash b ↔
      ComputeUnseededHash.pre a % 2 ^ 30 = ComputeUnseededHash.pre b % 2 ^ 30) ∧
    (ComputeUnseededHash a = ComputeUnseededHash b →
      ComputeUnseededHash.pre a / 2 ^ 30 = ComputeUnseededHash.pre b / 2 ^ 30 → a = b) := by
  have ea := ComputeUnseededHash_eq_pre_mod a
  have eb := ComputeUnseededHash_eq_pre_mod b
  refine ⟨fun hne h => hne (pre_inj a b ha hb h), rfl, pre_lt a, ?_, ?_⟩
  · rw [ea, eb]
  · intro h1 h2
    rw [ea, eb] at h1
    apply pre_inj a b ha hb
    omega

/-- Claim C20 at the keys 0 and 1: the values before the mask differ. -/
theorem pre_injective_witness :
    (0 : Nat) < 2 ^ 32 ∧ (1 : Nat) < 2 ^ 32 ∧
    ComputeUnseededHash.pre 0 ≠ ComputeUnseededHash.pre 1 :=
  ⟨by decide, by decide, (pre_injective 0 1 (by decide) (by decide)).1 (by decide)⟩

end HashCode
